import Mathlib

/-!
Shallow embedding of the nft141-v1 contracts:
`src/nft141pair/src/lib.rs` (the Vault, an NEP-141 share ledger over deposited
NFTs) and `src/nft141factory/src/lib.rs` (the Registry that creates and
indexes Vaults).  Pure state is modelled explicitly; each contract method
becomes a function from the pre-state (plus the ambient call context:
current account, predecessor account) to `Except String` of the post-state
together with the list of outbound NFT-transfer requests it issues.  A panic
(`assert!`, checked-arithmetic overflow, `unreachable!`, `unwrap` failure)
is an `Except.error`: on NEAR a panicking method leaves the contract state
unchanged and drops the receipts it created.
-/

namespace NFT141

abbrev AccountId := String

/-- Modelled from the spec: the crate's release profile (its
`overflow-checks` setting) is not under `src/`; spec section 7 fixes the
design as "Arithmetic bounds — underflow in supply/balance math; must be
guarded explicitly and rejected rather than wrapping", so every u128
operation below aborts (`Except.error`) instead of wrapping when it leaves
`[0, 2^128)`. -/
def U128LIM : Nat := 2 ^ 128

/-- Association list with update-in-place insert, embedding the on-chain
`LookupMap` key-value store. -/
def lookupA {α β : Type} [DecidableEq α] : List (α × β) → α → Option β
  | [], _ => none
  | (b, w) :: t, a => if b = a then some w else lookupA t a

def insertA {α β : Type} [DecidableEq α] : List (α × β) → α → β → List (α × β)
  | [], a, v => [(a, v)]
  | (b, w) :: t, a, v => if b = a then (a, v) :: t else (b, w) :: insertA t a v

/-- The share ledger's account table: account id to u128 balance. -/
abbrev Ledger := List (AccountId × Nat)

/-- Sum of all balances recorded in the ledger. -/
def sumBal (l : Ledger) : Nat := (l.map Prod.snd).sum

/-- From `src/nft141pair/src/metadata.rs`. -/
structure NFT141PairMetadata where
  spec : String
  name : String
  symbol : String
  icon : Option String
  reference : Option String
  reference_hash : Option (List Nat)
  decimals : Nat
deriving DecidableEq

def NFT141_FT_METADATA_SPEC : String := "nft141-ft-1.0.0"

/-- `NFT141PairMetadata::assert_valid`. -/
def assert_valid (m : NFT141PairMetadata) : Except String Unit :=
  if m.spec ≠ NFT141_FT_METADATA_SPEC then .error "spec mismatch"
  else if m.reference.isSome ≠ m.reference_hash.isSome then .error "reference mismatch"
  else match m.reference_hash with
    | some h => if h.length ≠ 32 then .error "Hash has to be 32 bytes" else .ok ()
    | none => .ok ()

/-- `PairInfos` as returned by `get_infos` (supply is a u128). -/
structure PairInfos where
  name : String
  symbol : String
  supply : Nat
  media : String
deriving DecidableEq

/-- The persistent state of `NFT141Pair`: the `FungibleToken` ledger
(`accounts` + `total_supply`) plus the contract's own fields. -/
structure VaultState where
  accounts : Ledger
  total_supply : Nat
  metadata : NFT141PairMetadata
  factory_contract_address : AccountId
  nft_contract_address : AccountId
  nft_value : Nat
  vault_name : String
  vault_symbol : String
  feature_media : String
deriving DecidableEq

/-- One `nft_transfer` request issued to the NFT contract. -/
structure TransferReq where
  receiver_id : AccountId
  token_id : String
deriving DecidableEq

/-- `ft_balance_of`: unregistered accounts read as 0. -/
def ft_balance_of (s : VaultState) (a : AccountId) : Nat :=
  (lookupA s.accounts a).getD 0

def ft_total_supply (s : VaultState) : Nat := s.total_supply

/-- `FungibleToken::internal_deposit`: panics if the account is not
registered; checked adds into balance and total supply. -/
def internal_deposit (s : VaultState) (acc : AccountId) (amount : Nat) :
    Except String VaultState :=
  match lookupA s.accounts acc with
  | none => .error "The account is not registered"
  | some balance =>
    if balance + amount < U128LIM then
      if s.total_supply + amount < U128LIM then
        .ok { s with accounts := insertA s.accounts acc (balance + amount),
                     total_supply := s.total_supply + amount }
      else .error "Total supply overflow"
    else .error "Balance overflow"

/-- `NFT141Pair::init_vault`.  `prev` is `env::state_exists()`: `some` means
the contract already holds state and the `assert!` fires.  `current` is
`env::current_account_id()` (the Vault's own account) and `pred` is
`env::predecessor_account_id()` (the constructing principal). -/
def init_vault (prev : Option VaultState) (current pred : AccountId)
    (nft_contract_address vault_name vault_symbol feature_media : String) :
    Except String VaultState :=
  match prev with
  | some _ => .error "Already initialized"
  | none =>
    let metadata : NFT141PairMetadata :=
      { spec := NFT141_FT_METADATA_SPEC, name := vault_name, symbol := vault_symbol,
        icon := some feature_media, reference := none, reference_hash := none,
        decimals := 24 }
    match assert_valid metadata with
    | .error e => .error e
    | .ok _ =>
      let s0 : VaultState :=
        { accounts := [], total_supply := 0, metadata := metadata,
          factory_contract_address := pred,
          nft_contract_address := nft_contract_address,
          nft_value := 100 * 10 ^ 24,
          vault_name := vault_name, vault_symbol := vault_symbol,
          feature_media := feature_media }
      let s1 := { s0 with accounts := insertA s0.accounts current 0 }
      internal_deposit s1 current s1.nft_value

/-- `NFT141Pair::get_infos`: `total_supply / nft_value - 1` with u128
semantics — division by zero and subtraction below zero abort. -/
def get_infos (s : VaultState) : Except String PairInfos :=
  if s.nft_value = 0 then .error "attempt to divide by zero"
  else if s.total_supply / s.nft_value = 0 then .error "attempt to subtract with overflow"
  else .ok { name := s.vault_name, symbol := s.vault_symbol,
             supply := s.total_supply / s.nft_value - 1,
             media := s.feature_media }

/-- `NFT141Pair::multi_nft_deposits`: issues one transfer-into-vault request
per id, registers the caller if absent, then mints `len * nft_value`. -/
def multi_nft_deposits (current pred : AccountId) (s : VaultState)
    (ids : List String) : Except String (VaultState × List TransferReq) :=
  let transfers := ids.map fun t => ({ receiver_id := current, token_id := t } : TransferReq)
  let s1 := if lookupA s.accounts pred = none
            then { s with accounts := insertA s.accounts pred 0 } else s
  if ids.length * s.nft_value < U128LIM then
    match internal_deposit s1 pred (ids.length * s.nft_value) with
    | .ok s2 => .ok (s2, transfers)
    | .error e => .error e
  else .error "attempt to multiply with overflow"

/-- `NFT141Pair::withdraw`: requires caller balance at least `nft_value`,
issues the outbound transfer, then burns `nft_value` from the caller and
from the total supply. -/
def withdraw (current pred : AccountId) (s : VaultState) (id : String) :
    Except String (VaultState × List TransferReq) :=
  let user_balance := ft_balance_of s pred
  if s.nft_value ≤ user_balance then
    if s.nft_value ≤ s.total_supply then
      .ok ({ s with accounts := insertA s.accounts pred (user_balance - s.nft_value),
                    total_supply := s.total_supply - s.nft_value },
           [{ receiver_id := pred, token_id := id }])
    else .error "attempt to subtract with overflow"
  else .error "Token balance is smaller than the nft value"

/-- `NFT141Pair::batch_withdraw`: the batch variant, burning
`len * nft_value`. -/
def batch_withdraw (current pred : AccountId) (s : VaultState)
    (ids : List String) : Except String (VaultState × List TransferReq) :=
  let user_balance := ft_balance_of s pred
  if ids.length * s.nft_value < U128LIM then
    if ids.length * s.nft_value ≤ user_balance then
      if ids.length * s.nft_value ≤ s.total_supply then
        .ok ({ s with
                accounts := insertA s.accounts pred (user_balance - ids.length * s.nft_value),
                total_supply := s.total_supply - ids.length * s.nft_value },
             ids.map fun t => ({ receiver_id := pred, token_id := t } : TransferReq))
      else .error "attempt to subtract with overflow"
    else .error "Token balance is smaller than the nft batch value"
  else .error "attempt to multiply with overflow"

/-- `NFT141Pair::setParams`: gated on the predecessor being the recorded
factory address; overwrites name, symbol, value and media. -/
def setParams (pred : AccountId) (s : VaultState)
    (name symbol : String) (value : Nat) (media : String) :
    Except String VaultState :=
  if pred = s.factory_contract_address then
    .ok { s with vault_name := name, vault_symbol := symbol,
                 nft_value := value, feature_media := media }
  else .error "!authorized"

/-- One Vault transaction after construction: the mutating entry points
quantified over by the reachability claims. -/
inductive VaultOp : Type
  | deposits (pred : AccountId) (ids : List String)
  | withdrawOp (pred : AccountId) (id : String)
  | batchWithdrawOp (pred : AccountId) (ids : List String)
  | setParamsOp (pred : AccountId) (name symbol : String) (value : Nat) (media : String)

/-- Committed post-state of a transaction that also emits transfers: a
panicking (error) transaction leaves the persisted state unchanged. -/
def orElseState (s : VaultState) : Except String (VaultState × List TransferReq) → VaultState
  | .ok (s', _) => s'
  | .error _ => s

/-- Committed post-state of a transaction with no emitted transfers. -/
def keepOnErr (s : VaultState) : Except String VaultState → VaultState
  | .ok s' => s'
  | .error _ => s

/-- Apply one transaction; a panicking (error) transaction leaves the
persisted state unchanged. -/
def applyVaultOp (current : AccountId) (s : VaultState) : VaultOp → VaultState
  | .deposits p ids => orElseState s (multi_nft_deposits current p s ids)
  | .withdrawOp p id => orElseState s (withdraw current p s id)
  | .batchWithdrawOp p ids => orElseState s (batch_withdraw current p s ids)
  | .setParamsOp p n sy v m => keepOnErr s (setParams p s n sy v m)

def runVault (current : AccountId) (s : VaultState) (ops : List VaultOp) : VaultState :=
  ops.foldl (applyVaultOp current) s

/-- The share-ledger invariant: recorded total supply equals the sum of all
recorded balances. -/
def ledgerInv (s : VaultState) : Prop := sumBal s.accounts = s.total_supply

/-! ### Factory (`src/nft141factory/src/lib.rs`) -/

/-- `NFT141Factory` persistent state. -/
structure FactoryState where
  nft_to_token : List (AccountId × AccountId)
  index_to_nft : List (Nat × AccountId)
  pairs_info : List PairInfos
  counter : Nat
  fee : Nat
deriving DecidableEq

/-- `NFT141Factory::default`. -/
def factoryDefault : FactoryState :=
  { nft_to_token := [], index_to_nft := [], pairs_info := [], counter := 0, fee := 0 }

/-- `str::replace(".", "-")` specialised to the single-character pattern:
replace every dot by a dash. -/
def replaceDots (s : String) : String :=
  String.mk (s.data.map fun c => if c = '.' then '-' else c)

/-- `str::to_lowercase`, character-wise via `Char.toLower`.  `Char.toLower`
agrees with Rust's Unicode lowercasing on ASCII only; the development
evaluates this function solely on ASCII inputs and proves no property that
depends on how non-ASCII characters are folded. -/
def lowerStr (s : String) : String := String.mk (s.data.map Char.toLower)

/-- `get_pair_contract_name`: dash-normalised symbol, a dot, the registry's
own account id, all lowercased. -/
def get_pair_contract_name (target current : AccountId) : String :=
  lowerStr (replaceDots target ++ "." ++ current)

/-- `NFT141Factory::nft141Pair` (vault creation): asserts the origin is
unregistered, derives the pair address from the symbol, records
origin -> pair and counter -> origin, increments the u64 counter. -/
def nft141Pair (current : AccountId) (s : FactoryState)
    (name nft_origin nft_symbol feature_media : String) :
    Except String FactoryState :=
  if (lookupA s.nft_to_token nft_origin).isSome then
    .error "Found this contract address before"
  else
    let pair_contract := get_pair_contract_name nft_symbol current
    if s.counter + 1 < 2 ^ 64 then
      .ok { s with nft_to_token := insertA s.nft_to_token nft_origin pair_contract,
                   index_to_nft := insertA s.index_to_nft s.counter nft_origin,
                   counter := s.counter + 1 }
    else .error "attempt to add with overflow"

/-- `NFT141Factory::getCounter`. -/
def getCounter (s : FactoryState) : Nat := s.counter

/-- One creation request (the arguments of `nft141Pair`). -/
structure CreateReq where
  name : String
  nft_origin : String
  nft_symbol : String
  feature_media : String
deriving DecidableEq

/-- Run a sequence of creation requests; failed ones leave the state
unchanged; returns the final state together with the list of indices the
successful creations were assigned. -/
def applyCreates (current : AccountId) :
    FactoryState → List CreateReq → FactoryState × List Nat
  | s, [] => (s, [])
  | s, r :: rest =>
    match nft141Pair current s r.name r.nft_origin r.nft_symbol r.feature_media with
    | .ok s' =>
      let p := applyCreates current s' rest
      (p.1, s.counter :: p.2)
    | .error _ => applyCreates current s rest

/-- Outcome of the single awaited promise in `pair_info_callback`.  The
`successful` payload is represented by its JSON-decoding result:
`some info` models bytes that `serde_json::from_slice::<PairInfos>`
accepts, `none` models bytes it rejects (whose `unwrap` panics). -/
inductive PromiseRes : Type
  | notReady
  | failed
  | successful (decoded : Option PairInfos)
deriving DecidableEq

/-- `NFT141Factory::pair_info_callback`: asserts exactly one promise
result; `NotReady` and `Failed` hit `unreachable!` (abort); on success the
decoded info is pushed onto the cache and returned. -/
def pair_info_callback (s : FactoryState) (promise_results_count : Nat)
    (r : PromiseRes) : Except String (FactoryState × PairInfos) :=
  if promise_results_count ≠ 1 then .error "This is a callback method"
  else match r with
    | .notReady => .error "internal error: entered unreachable code"
    | .failed => .error "internal error: entered unreachable code"
    | .successful none => .error "called `Result::unwrap()` on an `Err` value"
    | .successful (some info) =>
      .ok ({ s with pairs_info := s.pairs_info ++ [info] }, info)

/-- The state `init_vault` computes on a fresh contract (named for reuse in
the reachability statements; `init_vault_none_ok` below proves it is what
`init_vault` returns). -/
def vaultInit (current pred nft_contract_address vault_name vault_symbol feature_media : String) :
    VaultState :=
  { accounts := [(current, 100 * 10 ^ 24)], total_supply := 100 * 10 ^ 24,
    metadata :=
      { spec := NFT141_FT_METADATA_SPEC, name := vault_name, symbol := vault_symbol,
        icon := some feature_media, reference := none, reference_hash := none,
        decimals := 24 },
    factory_contract_address := pred,
    nft_contract_address := nft_contract_address,
    nft_value := 100 * 10 ^ 24,
    vault_name := vault_name, vault_symbol := vault_symbol,
    feature_media := feature_media }

/-! ### Ledger lemmas -/

theorem lookupA_insertA_self {α β : Type} [DecidableEq α] (l : List (α × β)) (a : α) (v : β) :
    lookupA (insertA l a v) a = some v := by
  induction l with
  | nil => simp [insertA, lookupA]
  | cons hd t ih =>
    obtain ⟨b, w⟩ := hd
    by_cases hba : b = a
    · simp [insertA, lookupA, hba]
    · simp [insertA, lookupA, hba, ih]

theorem lookupA_insertA_ne {α β : Type} [DecidableEq α] (l : List (α × β)) (a a' : α) (v : β)
    (h : a' ≠ a) : lookupA (insertA l a v) a' = lookupA l a' := by
  induction l with
  | nil => simp [insertA, lookupA, Ne.symm h]
  | cons hd t ih =>
    obtain ⟨b, w⟩ := hd
    by_cases hba : b = a
    · subst hba
      simp [insertA, lookupA, Ne.symm h]
    · simp [insertA, lookupA, hba, ih]

theorem sumBal_insertA (l : Ledger) (a : AccountId) (v : Nat) :
    sumBal (insertA l a v) + (lookupA l a).getD 0 = sumBal l + v := by
  induction l with
  | nil => simp [insertA, lookupA, sumBal]
  | cons hd t ih =>
    obtain ⟨b, w⟩ := hd
    by_cases hba : b = a
    · simp [insertA, lookupA, hba, sumBal]
      omega
    · simp only [insertA, lookupA, hba, if_false, sumBal, List.map_cons, List.sum_cons] at *
      omega

theorem lookupA_getD_le_sumBal (l : Ledger) (a : AccountId) :
    (lookupA l a).getD 0 ≤ sumBal l := by
  induction l with
  | nil => simp [lookupA, sumBal]
  | cons hd t ih =>
    obtain ⟨b, w⟩ := hd
    by_cases hba : b = a
    · simp [lookupA, hba, sumBal]
    · simp only [lookupA, hba, if_false, sumBal, List.map_cons, List.sum_cons] at *
      omega

/-! ### Characterisations of the Vault operations -/

theorem internal_deposit_ok {s : VaultState} {acc : AccountId} {amount : Nat} {s' : VaultState} :
    internal_deposit s acc amount = .ok s' ↔
    ∃ b, lookupA s.accounts acc = some b ∧ b + amount < U128LIM ∧
      s.total_supply + amount < U128LIM ∧
      s' = { s with accounts := insertA s.accounts acc (b + amount),
                    total_supply := s.total_supply + amount } := by
  unfold internal_deposit
  cases hl : lookupA s.accounts acc with
  | none => simp
  | some b =>
    by_cases h1 : b + amount < U128LIM <;>
      by_cases h2 : s.total_supply + amount < U128LIM <;>
        simp [h1, h2, eq_comm]

theorem insertA_insertA {α β : Type} [DecidableEq α] (l : List (α × β)) (a : α) (v1 v2 : β) :
    insertA (insertA l a v1) a v2 = insertA l a v2 := by
  induction l with
  | nil => simp [insertA]
  | cons hd t ih =>
    obtain ⟨b, w⟩ := hd
    by_cases hba : b = a
    · simp [insertA, hba]
    · simp [insertA, hba, ih]

theorem withdraw_ok {current pred : AccountId} {s : VaultState} {id : String}
    {s' : VaultState} {tr : List TransferReq} :
    withdraw current pred s id = .ok (s', tr) ↔
      s.nft_value ≤ ft_balance_of s pred ∧ s.nft_value ≤ s.total_supply ∧
      s' = { s with accounts := insertA s.accounts pred (ft_balance_of s pred - s.nft_value),
                    total_supply := s.total_supply - s.nft_value } ∧
      tr = [{ receiver_id := pred, token_id := id }] := by
  unfold withdraw
  by_cases h1 : s.nft_value ≤ ft_balance_of s pred <;>
    by_cases h2 : s.nft_value ≤ s.total_supply <;>
      simp [h1, h2, eq_comm]

theorem batch_withdraw_ok {current pred : AccountId} {s : VaultState} {ids : List String}
    {s' : VaultState} {tr : List TransferReq} :
    batch_withdraw current pred s ids = .ok (s', tr) ↔
      ids.length * s.nft_value < U128LIM ∧
      ids.length * s.nft_value ≤ ft_balance_of s pred ∧
      ids.length * s.nft_value ≤ s.total_supply ∧
      s' = { s with
              accounts := insertA s.accounts pred (ft_balance_of s pred - ids.length * s.nft_value),
              total_supply := s.total_supply - ids.length * s.nft_value } ∧
      tr = ids.map (fun t => ({ receiver_id := pred, token_id := t } : TransferReq)) := by
  unfold batch_withdraw
  by_cases h1 : ids.length * s.nft_value < U128LIM <;>
    by_cases h2 : ids.length * s.nft_value ≤ ft_balance_of s pred <;>
      by_cases h3 : ids.length * s.nft_value ≤ s.total_supply <;>
        simp [h1, h2, h3, eq_comm]

theorem setParams_ok {pred : AccountId} {s : VaultState} {name symbol : String}
    {value : Nat} {media : String} {s' : VaultState} :
    setParams pred s name symbol value media = .ok s' ↔
      pred = s.factory_contract_address ∧
      s' = { s with vault_name := name, vault_symbol := symbol,
                    nft_value := value, feature_media := media } := by
  unfold setParams
  split_ifs with h1 <;> simp [h1, eq_comm]

theorem multi_nft_deposits_ok {current pred : AccountId} {s : VaultState} {ids : List String}
    {s' : VaultState} {tr : List TransferReq} :
    multi_nft_deposits current pred s ids = .ok (s', tr) ↔
      ft_balance_of s pred + ids.length * s.nft_value < U128LIM ∧
      s.total_supply + ids.length * s.nft_value < U128LIM ∧
      s' = { s with
              accounts := insertA s.accounts pred (ft_balance_of s pred + ids.length * s.nft_value),
              total_supply := s.total_supply + ids.length * s.nft_value } ∧
      tr = ids.map (fun t => ({ receiver_id := current, token_id := t } : TransferReq)) := by
  unfold multi_nft_deposits
  by_cases hreg : lookupA s.accounts pred = none
  · have hb : ft_balance_of s pred = 0 := by simp [ft_balance_of, hreg]
    rw [if_pos hreg]
    by_cases hamt : ids.length * s.nft_value < U128LIM
    · rw [if_pos hamt]
      cases hd : internal_deposit { s with accounts := insertA s.accounts pred 0 } pred
          (ids.length * s.nft_value) with
      | ok s2 =>
        obtain ⟨b, hb2, h1, h2, hs2⟩ := internal_deposit_ok.mp hd
        simp only at hb2 hs2 h2
        rw [lookupA_insertA_self] at hb2
        have hbz : b = 0 := by simpa using hb2.symm
        subst hbz
        subst hs2
        simp [hb, insertA_insertA, h1, h2, hamt, eq_comm]
      | error e =>
        refine iff_of_false (by simp) ?_
        rintro ⟨h1, h2, -, -⟩
        have hok := (@internal_deposit_ok { s with accounts := insertA s.accounts pred 0 }
            pred (ids.length * s.nft_value)
            { s with accounts := insertA (insertA s.accounts pred 0) pred
                        (0 + ids.length * s.nft_value),
                     total_supply := s.total_supply + ids.length * s.nft_value }).mpr
          ⟨0, lookupA_insertA_self s.accounts pred 0,
            by rw [Nat.zero_add]; exact lt_of_le_of_lt (Nat.le_add_left _ _) h1, h2, rfl⟩
        rw [hd] at hok
        cases hok
    · rw [if_neg hamt]
      refine iff_of_false (by simp) ?_
      rintro ⟨-, h2, -, -⟩
      exact absurd (lt_of_le_of_lt (Nat.le_add_left _ _) h2) hamt
  · obtain ⟨b0, hb0⟩ : ∃ b0, lookupA s.accounts pred = some b0 := by
      cases hx : lookupA s.accounts pred with
      | none => exact absurd hx hreg
      | some b0 => exact ⟨b0, rfl⟩
    have hb : ft_balance_of s pred = b0 := by simp [ft_balance_of, hb0]
    rw [if_neg hreg]
    by_cases hamt : ids.length * s.nft_value < U128LIM
    · rw [if_pos hamt]
      cases hd : internal_deposit s pred (ids.length * s.nft_value) with
      | ok s2 =>
        obtain ⟨b, hb2, h1, h2, hs2⟩ := internal_deposit_ok.mp hd
        rw [hb0] at hb2
        have hbz : b = b0 := by simpa using hb2.symm
        subst hbz
        subst hs2
        simp [hb, h1, h2, hamt, eq_comm]
      | error e =>
        refine iff_of_false (by simp) ?_
        rintro ⟨h1, h2, -, -⟩
        have hok := (@internal_deposit_ok s pred (ids.length * s.nft_value)
            { s with accounts := insertA s.accounts pred (b0 + ids.length * s.nft_value),
                     total_supply := s.total_supply + ids.length * s.nft_value }).mpr
          ⟨b0, hb0, hb ▸ h1, h2, rfl⟩
        rw [hd] at hok
        cases hok
    · rw [if_neg hamt]
      refine iff_of_false (by simp) ?_
      rintro ⟨-, h2, -, -⟩
      exact absurd (lt_of_le_of_lt (Nat.le_add_left _ _) h2) hamt

/-! ### The ledger invariant is preserved -/

theorem ledgerInv_applyVaultOp (current : AccountId) (s : VaultState) (op : VaultOp)
    (h : ledgerInv s) : ledgerInv (applyVaultOp current s op) := by
  cases op with
  | deposits p ids =>
    simp only [applyVaultOp]
    cases hd : multi_nft_deposits current p s ids with
    | error e => simpa [orElseState] using h
    | ok pr =>
      obtain ⟨s', tr⟩ := pr
      simp only [orElseState]
      obtain ⟨h1, h2, hs', -⟩ := multi_nft_deposits_ok.mp hd
      subst hs'
      have hsum := sumBal_insertA s.accounts p (ft_balance_of s p + ids.length * s.nft_value)
      unfold ledgerInv at h ⊢
      simp only [ft_balance_of] at *
      omega
  | withdrawOp p id =>
    simp only [applyVaultOp]
    cases hd : withdraw current p s id with
    | error e => simpa [orElseState] using h
    | ok pr =>
      obtain ⟨s', tr⟩ := pr
      simp only [orElseState]
      obtain ⟨h1, h2, hs', -⟩ := withdraw_ok.mp hd
      subst hs'
      have hsum := sumBal_insertA s.accounts p (ft_balance_of s p - s.nft_value)
      unfold ledgerInv at h ⊢
      simp only [ft_balance_of] at *
      omega
  | batchWithdrawOp p ids =>
    simp only [applyVaultOp]
    cases hd : batch_withdraw current p s ids with
    | error e => simpa [orElseState] using h
    | ok pr =>
      obtain ⟨s', tr⟩ := pr
      simp only [orElseState]
      obtain ⟨h0, h1, h2, hs', -⟩ := batch_withdraw_ok.mp hd
      subst hs'
      have hsum := sumBal_insertA s.accounts p (ft_balance_of s p - ids.length * s.nft_value)
      unfold ledgerInv at h ⊢
      simp only [ft_balance_of] at *
      omega
  | setParamsOp p n sy v m =>
    simp only [applyVaultOp]
    cases hd : setParams p s n sy v m with
    | error e => simpa [keepOnErr] using h
    | ok s' =>
      simp only [keepOnErr]
      obtain ⟨-, hs'⟩ := setParams_ok.mp hd
      subst hs'
      exact h

theorem ledgerInv_runVault (current : AccountId) (s : VaultState) (ops : List VaultOp)
    (h : ledgerInv s) : ledgerInv (runVault current s ops) := by
  induction ops generalizing s with
  | nil => exact h
  | cons op rest ih =>
    exact ih (applyVaultOp current s op) (ledgerInv_applyVaultOp current s op h)

theorem init_vault_none_ok (current pred nc nm sy md : String) :
    init_vault none current pred nc nm sy md = .ok (vaultInit current pred nc nm sy md) := by
  norm_num [init_vault, assert_valid, NFT141_FT_METADATA_SPEC, internal_deposit,
    insertA, lookupA, U128LIM, vaultInit]

/-! ### Factory lemmas -/

theorem nft141Pair_ok {current : AccountId} {s : FactoryState}
    {name origin symbol media : String} {s' : FactoryState} :
    nft141Pair current s name origin symbol media = .ok s' ↔
      lookupA s.nft_to_token origin = none ∧ s.counter + 1 < 2 ^ 64 ∧
      s' = { s with
              nft_to_token := insertA s.nft_to_token origin (get_pair_contract_name symbol current),
              index_to_nft := insertA s.index_to_nft s.counter origin,
              counter := s.counter + 1 } := by
  unfold nft141Pair
  cases hl : lookupA s.nft_to_token origin with
  | some v => simp [hl]
  | none =>
    by_cases h2 : s.counter + 1 < 2 ^ 64 <;> norm_num at h2
    · simp [hl, h2, eq_comm]
    · have h2' : ¬(s.counter + 1 < 18446744073709551616) := by omega
      simp [hl, h2', eq_comm]

theorem applyCreates_spec (current : AccountId) (reqs : List CreateReq) (s : FactoryState) :
    (applyCreates current s reqs).2 = List.range' s.counter (applyCreates current s reqs).2.length ∧
    (applyCreates current s reqs).1.counter = s.counter + (applyCreates current s reqs).2.length := by
  induction reqs generalizing s with
  | nil => simp [applyCreates]
  | cons r rest ih =>
    simp only [applyCreates]
    cases hd : nft141Pair current s r.name r.nft_origin r.nft_symbol r.feature_media with
    | error e => simpa using ih s
    | ok s2 =>
      obtain ⟨-, -, hs2⟩ := nft141Pair_ok.mp hd
      have hc2 : s2.counter = s.counter + 1 := by rw [hs2]
      obtain ⟨ih1, ih2⟩ := ih s2
      refine ⟨?_, ?_⟩
      · show s.counter :: (applyCreates current s2 rest).2 =
          List.range' s.counter (s.counter :: (applyCreates current s2 rest).2).length
        rw [List.length_cons, List.range'_succ, ← hc2, ← ih1]
      · show (applyCreates current s2 rest).1.counter =
          s.counter + (s.counter :: (applyCreates current s2 rest).2).length
        rw [List.length_cons, ih2, hc2]
        omega

theorem get_infos_ok_of_le {s : VaultState} (h1 : 0 < s.nft_value)
    (h2 : s.nft_value ≤ s.total_supply) :
    get_infos s = .ok { name := s.vault_name, symbol := s.vault_symbol,
                        supply := s.total_supply / s.nft_value - 1,
                        media := s.feature_media } := by
  have hq : s.total_supply / s.nft_value ≠ 0 := by
    have := (Nat.one_le_div_iff h1).mpr h2
    omega
  have h0 : s.nft_value ≠ 0 := by omega
  simp [get_infos, h0, hq]

theorem get_infos_err_of_lt {s : VaultState} (h : s.total_supply < s.nft_value) :
    ∃ e, get_infos s = .error e := by
  by_cases h0 : s.nft_value = 0
  · exact ⟨"attempt to divide by zero", by simp [get_infos, h0]⟩
  · have hq : s.total_supply / s.nft_value = 0 := Nat.div_eq_of_lt h
    exact ⟨"attempt to subtract with overflow", by simp [get_infos, h0, hq]⟩

/-! ### Claims -/

/-- C1: for every Vault state reachable by any sequence of the Vault's own
operations (init_vault, multi_nft_deposits, withdraw, batch_withdraw,
setParams), at every observable state boundary the recorded total supply of
the share ledger equals the sum of all account balances in the ledger. -/
theorem c1_total_supply_eq_sum_balances (current pred nc nm sy md : String)
    (ops : List VaultOp) :
    ∃ s0, init_vault none current pred nc nm sy md = .ok s0 ∧
      sumBal (runVault current s0 ops).accounts = (runVault current s0 ops).total_supply := by
  refine ⟨vaultInit current pred nc nm sy md, init_vault_none_ok current pred nc nm sy md, ?_⟩
  have h0 : ledgerInv (vaultInit current pred nc nm sy md) := by
    simp [ledgerInv, vaultInit, sumBal]
  exact ledgerInv_runVault current _ ops h0

/-- C2: whenever `total_supply ≥ unit_value` (and the unit value is
positive), `get_infos` returns reported supply `total_supply / unit_value - 1`;
whenever `total_supply < unit_value` it fails with a rejection instead of
computing a wrapped value. -/
theorem c2_get_infos_reported_supply (s : VaultState) :
    (0 < s.nft_value → s.nft_value ≤ s.total_supply →
      get_infos s = .ok { name := s.vault_name, symbol := s.vault_symbol,
                          supply := s.total_supply / s.nft_value - 1,
                          media := s.feature_media }) ∧
    (s.total_supply < s.nft_value → ∃ e, get_infos s = .error e) :=
  ⟨fun h1 h2 => get_infos_ok_of_le h1 h2, fun h => get_infos_err_of_lt h⟩

/-- C2 witness: on a freshly initialised Vault the reported supply is 0, and
on a Vault whose supply has been emptied below the unit value the call
fails. -/
theorem c2_witness :
    get_infos (vaultInit "vault" "factory" "nft" "nm" "sy" "md") =
      .ok { name := "nm", symbol := "sy", supply := 0, media := "md" } ∧
    ∃ e, get_infos { vaultInit "vault" "factory" "nft" "nm" "sy" "md" with
                      accounts := [], total_supply := 0 } = .error e := by
  constructor
  · have h := (c2_get_infos_reported_supply (vaultInit "vault" "factory" "nft" "nm" "sy" "md")).1
      (by norm_num [vaultInit]) (by norm_num [vaultInit])
    simpa [vaultInit] using h
  · exact (c2_get_infos_reported_supply _).2 (by norm_num [vaultInit])

/-- C3: `withdraw` fails when the caller's balance is below `unit_value`
(and, the error aborting the transaction, leaves the ledger unchanged); on a
ledger satisfying the supply invariant, a caller with balance at least
`unit_value` succeeds, both the balance and the total supply decrease by
exactly `unit_value`, and no other balance changes. -/
theorem c3_withdraw_spec (current pred id : String) (s : VaultState) :
    (ft_balance_of s pred < s.nft_value →
      withdraw current pred s id = .error "Token balance is smaller than the nft value") ∧
    (sumBal s.accounts = s.total_supply → s.nft_value ≤ ft_balance_of s pred →
      ∃ s', withdraw current pred s id =
          .ok (s', [{ receiver_id := pred, token_id := id }]) ∧
        ft_balance_of s' pred + s.nft_value = ft_balance_of s pred ∧
        s'.total_supply + s.nft_value = s.total_supply ∧
        ∀ a, a ≠ pred → ft_balance_of s' a = ft_balance_of s a) := by
  constructor
  · intro h
    unfold withdraw
    rw [if_neg (by omega)]
  · intro hinv hge
    have hts : s.nft_value ≤ s.total_supply := by
      have hle := lookupA_getD_le_sumBal s.accounts pred
      unfold ft_balance_of at hge
      omega
    refine ⟨_, withdraw_ok.mpr ⟨hge, hts, rfl, rfl⟩, ?_, ?_, ?_⟩
    · unfold ft_balance_of at hge ⊢
      simp only [lookupA_insertA_self, Option.getD_some]
      omega
    · simp only
      omega
    · intro a ha
      simp [ft_balance_of, lookupA_insertA_ne _ _ _ _ ha]

/-- C3 witness: an account with no balance cannot withdraw; the Vault's own
seed account can, and loses exactly one unit value of shares. -/
theorem c3_witness :
    withdraw "vault" "alice" (vaultInit "vault" "factory" "nft" "nm" "sy" "md") "tok" =
      .error "Token balance is smaller than the nft value" ∧
    ∃ s', withdraw "vault" "vault" (vaultInit "vault" "factory" "nft" "nm" "sy" "md") "tok" =
        .ok (s', [{ receiver_id := "vault", token_id := "tok" }]) ∧
      ft_balance_of s' "vault" + (vaultInit "vault" "factory" "nft" "nm" "sy" "md").nft_value =
        ft_balance_of (vaultInit "vault" "factory" "nft" "nm" "sy" "md") "vault" ∧
      s'.total_supply + (vaultInit "vault" "factory" "nft" "nm" "sy" "md").nft_value =
        (vaultInit "vault" "factory" "nft" "nm" "sy" "md").total_supply ∧
      ∀ a, a ≠ "vault" →
        ft_balance_of s' a = ft_balance_of (vaultInit "vault" "factory" "nft" "nm" "sy" "md") a := by
  constructor
  · exact (c3_withdraw_spec "vault" "alice" "tok" _).1 (by decide)
  · exact (c3_withdraw_spec "vault" "vault" "tok" _).2
      (by norm_num [vaultInit, sumBal])
      (by norm_num [vaultInit, ft_balance_of, lookupA])

/-- C4: creating a vault for an origin that already has a record fails
before any state mutation; a successful creation records the origin at the
current counter and increments it, and from a fresh Registry the indices
assigned by successive successful creations are `0, 1, 2, …` with
`getCounter` equal to the number of successful creations. -/
theorem c4_registry_creation :
    (∀ (current : AccountId) (s : FactoryState) (name origin symbol media : String),
      (lookupA s.nft_to_token origin).isSome →
      nft141Pair current s name origin symbol media = .error "Found this contract address before") ∧
    (∀ (current : AccountId) (s : FactoryState) (name origin symbol media : String)
      (s' : FactoryState), nft141Pair current s name origin symbol media = .ok s' →
      lookupA s.nft_to_token origin = none ∧
      getCounter s' = getCounter s + 1 ∧
      lookupA s'.index_to_nft (getCounter s) = some origin) ∧
    (∀ (current : AccountId) (reqs : List CreateReq),
      (applyCreates current factoryDefault reqs).2 =
        List.range' 0 (applyCreates current factoryDefault reqs).2.length ∧
      getCounter (applyCreates current factoryDefault reqs).1 =
        (applyCreates current factoryDefault reqs).2.length) := by
  refine ⟨?_, ?_, ?_⟩
  · intro current s name origin symbol media h
    unfold nft141Pair
    rw [if_pos h]
  · intro current s name origin symbol media s' h
    obtain ⟨h1, h2, hs'⟩ := nft141Pair_ok.mp h
    subst hs'
    exact ⟨h1, rfl, by simp [getCounter, lookupA_insertA_self]⟩
  · intro current reqs
    have h := applyCreates_spec current reqs factoryDefault
    simpa [getCounter, factoryDefault] using h

/-- C4 witness: a duplicate origin is rejected; the first creation on a
fresh Registry succeeds, records the origin at index 0 and sets the counter
to 1. -/
theorem c4_witness :
    nft141Pair "factory.near"
      { nft_to_token := [("origin.near", "pair.factory.near")],
        index_to_nft := [(0, "origin.near")], pairs_info := [], counter := 1, fee := 0 }
      "nm" "origin.near" "sym" "md" = .error "Found this contract address before" ∧
    (lookupA (factoryDefault).nft_to_token "origin.near" = none ∧
      getCounter ({ nft_to_token := [("origin.near", "sym.factory.near")],
                    index_to_nft := [(0, "origin.near")], pairs_info := [],
                    counter := 1, fee := 0 } : FactoryState) = getCounter factoryDefault + 1 ∧
      lookupA ({ nft_to_token := [("origin.near", "sym.factory.near")],
                 index_to_nft := [(0, "origin.near")], pairs_info := [],
                 counter := 1, fee := 0 } : FactoryState).index_to_nft
        (getCounter factoryDefault) = some "origin.near") := by
  constructor
  · exact c4_registry_creation.1 "factory.near" _ "nm" "origin.near" "sym" "md" (by decide)
  · exact c4_registry_creation.2.1 "factory.near" factoryDefault "nm" "origin.near" "sym" "md"
      _ rfl

/-- C5: init_vault fails when the contract is already initialised; on a
fresh contract it sets the unit value to 100 whole units with 24 decimals
(100·10^24), credits exactly that amount to the Vault's own account so the
total supply equals the unit value, and records the constructing principal
(the predecessor) as the registry address. -/
theorem c5_init_vault_seed (current pred nc nm sy md : String) (st : VaultState) :
    init_vault (some st) current pred nc nm sy md = .error "Already initialized" ∧
    init_vault none current pred nc nm sy md = .ok (vaultInit current pred nc nm sy md) ∧
    (vaultInit current pred nc nm sy md).nft_value = 100 * 10 ^ 24 ∧
    ft_balance_of (vaultInit current pred nc nm sy md) current = 100 * 10 ^ 24 ∧
    ft_total_supply (vaultInit current pred nc nm sy md) = 100 * 10 ^ 24 ∧
    (vaultInit current pred nc nm sy md).factory_contract_address = pred := by
  refine ⟨rfl, init_vault_none_ok current pred nc nm sy md, rfl, ?_, ?_, rfl⟩
  · simp [ft_balance_of, vaultInit, lookupA]
  · simp [ft_total_supply, vaultInit]

/-- C6: setParams from a principal other than the recorded factory address
fails with the authorization error (aborting, so the metadata is
unchanged); from the factory address it succeeds, overwrites exactly name,
symbol, unit value and media, leaves the ledger untouched, and the next
get_infos reflects the new values. -/
theorem c6_setParams_authorization (pred : String) (s : VaultState)
    (name sym : String) (value : Nat) (media : String) :
    (pred ≠ s.factory_contract_address →
      setParams pred s name sym value media = .error "!authorized") ∧
    (pred = s.factory_contract_address →
      ∃ s', setParams pred s name sym value media = .ok s' ∧
        s'.vault_name = name ∧ s'.vault_symbol = sym ∧
        s'.nft_value = value ∧ s'.feature_media = media ∧
        s'.accounts = s.accounts ∧ s'.total_supply = s.total_supply ∧
        s'.metadata = s.metadata ∧
        s'.factory_contract_address = s.factory_contract_address ∧
        s'.nft_contract_address = s.nft_contract_address ∧
        (0 < value → value ≤ s.total_supply →
          get_infos s' = .ok { name := name, symbol := sym,
                               supply := s.total_supply / value - 1,
                               media := media })) := by
  constructor
  · intro h
    unfold setParams
    rw [if_neg h]
  · intro h
    refine ⟨_, setParams_ok.mpr ⟨h, rfl⟩, rfl, rfl, rfl, rfl, rfl, rfl, rfl, rfl, rfl, ?_⟩
    intro h1 h2
    exact get_infos_ok_of_le h1 h2

/-- C6 witness: a stranger is rejected; the factory can halve the unit
value, after which get_infos reports one circulating unit. -/
theorem c6_witness :
    setParams "eve" (vaultInit "vault" "factory" "nft" "nm" "sy" "md")
      "n2" "s2" (50 * 10 ^ 24) "m2" = .error "!authorized" ∧
    ∃ s', setParams "factory" (vaultInit "vault" "factory" "nft" "nm" "sy" "md")
        "n2" "s2" (50 * 10 ^ 24) "m2" = .ok s' ∧
      s'.vault_name = "n2" ∧ s'.vault_symbol = "s2" ∧
      s'.nft_value = 50 * 10 ^ 24 ∧ s'.feature_media = "m2" ∧
      s'.accounts = (vaultInit "vault" "factory" "nft" "nm" "sy" "md").accounts ∧
      s'.total_supply = (vaultInit "vault" "factory" "nft" "nm" "sy" "md").total_supply ∧
      s'.metadata = (vaultInit "vault" "factory" "nft" "nm" "sy" "md").metadata ∧
      s'.factory_contract_address =
        (vaultInit "vault" "factory" "nft" "nm" "sy" "md").factory_contract_address ∧
      s'.nft_contract_address =
        (vaultInit "vault" "factory" "nft" "nm" "sy" "md").nft_contract_address ∧
      (0 < 50 * 10 ^ 24 →
        50 * 10 ^ 24 ≤ (vaultInit "vault" "factory" "nft" "nm" "sy" "md").total_supply →
        get_infos s' = .ok { name := "n2", symbol := "s2",
                             supply := (vaultInit "vault" "factory" "nft" "nm" "sy" "md").total_supply /
                               (50 * 10 ^ 24) - 1,
                             media := "m2" }) := by
  constructor
  · exact (c6_setParams_authorization "eve" _ "n2" "s2" (50 * 10 ^ 24) "m2").1 (by decide)
  · exact (c6_setParams_authorization "factory" _ "n2" "s2" (50 * 10 ^ 24) "m2").2 (by decide)

/-- C7: on a ledger satisfying the supply invariant and without u128
overflow, multi_nft_deposits with n asset ids always succeeds, registers
the caller if absent, increases the caller's balance and the total supply
by exactly n · unit_value, and changes no other balance. -/
theorem c7_multi_nft_deposits_mint (current pred : String) (ids : List String)
    (s : VaultState) :
    sumBal s.accounts = s.total_supply →
    s.total_supply + ids.length * s.nft_value < U128LIM →
    ∃ s', multi_nft_deposits current pred s ids =
        .ok (s', ids.map fun t => ({ receiver_id := current, token_id := t } : TransferReq)) ∧
      (lookupA s'.accounts pred).isSome ∧
      ft_balance_of s' pred = ft_balance_of s pred + ids.length * s.nft_value ∧
      s'.total_supply = s.total_supply + ids.length * s.nft_value ∧
      ∀ a, a ≠ pred → ft_balance_of s' a = ft_balance_of s a := by
  intro hinv hlim
  have hbal : ft_balance_of s pred ≤ s.total_supply := by
    have hle := lookupA_getD_le_sumBal s.accounts pred
    unfold ft_balance_of
    omega
  refine ⟨_, multi_nft_deposits_ok.mpr ⟨by omega, hlim, rfl, rfl⟩, ?_, ?_, ?_, ?_⟩
  · simp [lookupA_insertA_self]
  · simp [ft_balance_of, lookupA_insertA_self]
  · rfl
  · intro a ha
    simp [ft_balance_of, lookupA_insertA_ne _ _ _ _ ha]

/-- C7 witness: a fresh account depositing three assets gains exactly
3 · unit_value shares and the supply grows by the same amount. -/
theorem c7_witness :
    ∃ s', multi_nft_deposits "vault" "alice" (vaultInit "vault" "factory" "nft" "nm" "sy" "md")
        ["a", "b", "c"] =
        .ok (s', (["a", "b", "c"].map
          fun t => ({ receiver_id := "vault", token_id := t } : TransferReq))) ∧
      (lookupA s'.accounts "alice").isSome ∧
      ft_balance_of s' "alice" =
        ft_balance_of (vaultInit "vault" "factory" "nft" "nm" "sy" "md") "alice" +
          (["a", "b", "c"] : List String).length *
            (vaultInit "vault" "factory" "nft" "nm" "sy" "md").nft_value ∧
      s'.total_supply = (vaultInit "vault" "factory" "nft" "nm" "sy" "md").total_supply +
        (["a", "b", "c"] : List String).length *
          (vaultInit "vault" "factory" "nft" "nm" "sy" "md").nft_value ∧
      ∀ a, a ≠ "alice" →
        ft_balance_of s' a = ft_balance_of (vaultInit "vault" "factory" "nft" "nm" "sy" "md") a :=
  c7_multi_nft_deposits_mint "vault" "alice" ["a", "b", "c"] _
    (by norm_num [vaultInit, sumBal]) (by norm_num [vaultInit, U128LIM])

/-- C8 counterexample: two successful creations on the same fresh Registry
with distinct origins but the same symbol derive the SAME vault address, so
the derivation is not collision-free per distinct origins. -/
theorem c8_counterexample :
    ∃ s1 s2 : FactoryState,
      nft141Pair "factory.near" factoryDefault "n1" "origin1.near" "tok" "m1" = .ok s1 ∧
      nft141Pair "factory.near" s1 "n2" "origin2.near" "tok" "m2" = .ok s2 ∧
      ("origin1.near" : String) ≠ "origin2.near" ∧
      lookupA s2.nft_to_token "origin1.near" = some "tok.factory.near" ∧
      lookupA s2.nft_to_token "origin2.near" = some "tok.factory.near" := by
  refine ⟨{ nft_to_token := [("origin1.near", "tok.factory.near")],
            index_to_nft := [(0, "origin1.near")], pairs_info := [], counter := 1, fee := 0 },
          { nft_to_token := [("origin1.near", "tok.factory.near"),
                             ("origin2.near", "tok.factory.near")],
            index_to_nft := [(0, "origin1.near"), (1, "origin2.near")],
            pairs_info := [], counter := 2, fee := 0 },
          rfl, rfl, by decide, by decide, by decide⟩

/-- C8 (amended): the vault address recorded by a successful creation is a
deterministic function of the vault symbol and the Registry's own address
alone — in particular any two successful creations on the same Registry
with the same symbol, whatever their origins, record the same derived
address, so the derivation is NOT collision-free per distinct origins. -/
theorem c8_vault_address_derivation (current : AccountId) (s : FactoryState)
    (name origin symbol media : String) (s' : FactoryState) :
    nft141Pair current s name origin symbol media = .ok s' →
    lookupA s'.nft_to_token origin = some (get_pair_contract_name symbol current) ∧
    ∀ (s2 : FactoryState) (name2 origin2 media2 : String) (s2' : FactoryState),
      nft141Pair current s2 name2 origin2 symbol media2 = .ok s2' →
      lookupA s2'.nft_to_token origin2 = some (get_pair_contract_name symbol current) := by
  intro h
  obtain ⟨-, -, hs'⟩ := nft141Pair_ok.mp h
  subst hs'
  refine ⟨by simp [lookupA_insertA_self], ?_⟩
  intro s2 name2 origin2 media2 s2' h2
  obtain ⟨-, -, hs2'⟩ := nft141Pair_ok.mp h2
  subst hs2'
  simp [lookupA_insertA_self]

/-- C8 witness: two concrete successful creations with distinct origins and
the same symbol each record the address derived from that one symbol. -/
theorem c8_witness :
    lookupA ({ nft_to_token := [("origin1.near", "tok.factory.near")],
               index_to_nft := [(0, "origin1.near")], pairs_info := [],
               counter := 1, fee := 0 } : FactoryState).nft_to_token "origin1.near" =
      some (get_pair_contract_name "tok" "factory.near") ∧
    lookupA ({ nft_to_token := [("origin1.near", "tok.factory.near"),
                                ("origin2.near", "tok.factory.near")],
               index_to_nft := [(0, "origin1.near"), (1, "origin2.near")],
               pairs_info := [], counter := 2, fee := 0 } : FactoryState).nft_to_token
        "origin2.near" = some (get_pair_contract_name "tok" "factory.near") := by
  have h := c8_vault_address_derivation "factory.near" factoryDefault
    "n1" "origin1.near" "tok" "m1"
    { nft_to_token := [("origin1.near", "tok.factory.near")],
      index_to_nft := [(0, "origin1.near")], pairs_info := [], counter := 1, fee := 0 } rfl
  refine ⟨h.1, h.2
    { nft_to_token := [("origin1.near", "tok.factory.near")],
      index_to_nft := [(0, "origin1.near")], pairs_info := [], counter := 1, fee := 0 }
    "n2" "origin2.near" "m2"
    { nft_to_token := [("origin1.near", "tok.factory.near"),
                       ("origin2.near", "tok.factory.near")],
      index_to_nft := [(0, "origin1.near"), (1, "origin2.near")],
      pairs_info := [], counter := 2, fee := 0 } rfl⟩

/-- C9: the Registry's info callback, inspecting its single promise result,
appends the decoded PublicVaultInfo to the cache and returns it on
success-with-payload, and aborts (an error with no state committed and no
recoverable value) when the outcome is failure or not-yet-resolved. -/
theorem c9_pair_info_callback_policy (s : FactoryState) (info : PairInfos) :
    pair_info_callback s 1 (.successful (some info)) =
      .ok ({ s with pairs_info := s.pairs_info ++ [info] }, info) ∧
    pair_info_callback s 1 .notReady = .error "internal error: entered unreachable code" ∧
    pair_info_callback s 1 .failed = .error "internal error: entered unreachable code" := by
  refine ⟨?_, ?_, ?_⟩ <;> simp [pair_info_callback]

/-- C10: batch_withdraw with an empty id list succeeds for every caller —
including one never registered in the ledger — issues no transfer request,
and leaves the total supply and every observable balance unchanged. -/
theorem c10_batch_withdraw_empty (current pred : String) (s : VaultState) :
    ∃ s', batch_withdraw current pred s [] = .ok (s', []) ∧
      s'.total_supply = s.total_supply ∧
      ∀ a, ft_balance_of s' a = ft_balance_of s a := by
  refine ⟨_, batch_withdraw_ok.mpr ⟨?_, ?_, ?_, rfl, rfl⟩, ?_, ?_⟩
  · simp [U128LIM]
  · simp
  · simp
  · simp
  · intro a
    by_cases ha : a = pred
    · subst ha
      simp [ft_balance_of, lookupA_insertA_self]
    · simp [ft_balance_of, lookupA_insertA_ne _ _ _ _ ha]

end NFT141
